import Mathlib

/-!
Verification of the spinner repository (a browser color-wheel picker).

The development shallowly embeds the pieces of the program that the
specification talks about:

* JS strings are modelled as `List Char` (`JStr`); `String.prototype.trim`,
  comma removal, truncation and `split(',')` are modelled character by
  character.
* The angle-to-winner resolution of `ColorWheelPicker.tsx`
  (`handleAnimatedSpin`) and `helpers.ts` (`calculateSelectedOptionIndex`)
  is modelled twice: `sectorIndexCore` uses exact arithmetic
  (`Math.floor(x / (360 / n))` becomes `Int.fdiv (x * n) 360`, since
  `x / (360 / n) = x * n / 360` over the rationals; JS `%` on numbers is
  truncating remainder, `Int.tmod`), and `sectorIndexFloat` additionally
  models the two divisions with IEEE-754 binary64 round-to-nearest-even
  (`roundDouble`), which matters only for `optionCount ≥ 35`.
* The option registry operations come from `OptionForm.tsx`
  (`handleAddOption`, `handleDeleteOption`, the reset handler) and the URL
  hydration effect of `ColorWheelPicker.tsx`.
* The winner history update is `setWinnerList([label, ...old].splice(0, 35))`
  of `ColorWheelPicker.tsx`; `Array.prototype.splice(0, 35)` returns the
  removed first 35 elements, i.e. `List.take 35` of the prepended list.
* The animation easing is modelled over `ℚ`.
-/

namespace Spinner

/-- JS strings modelled as lists of characters. -/
abbrev JStr := List Char

/-- Whitespace test used by the model of `String.prototype.trim`. -/
def isWs (c : Char) : Bool := c.isWhitespace

/-- Model of `String.prototype.trim`: drop trailing whitespace (via reverse),
then leading whitespace. -/
def trimChars (l : JStr) : JStr :=
  ((l.reverse.dropWhile isWs).reverse).dropWhile isWs

/-- Model of `.replace(/,/g, '')`: remove every comma character. -/
def stripCommas (l : JStr) : JStr := l.filter (fun c => c ≠ ',')

/-- `WHEEL_CONFIG.MAX_OPTIONS` from `src/constants/wheelConfig.ts`. -/
def MAX_OPTIONS : Nat := 20

/-- `WHEEL_CONFIG.MAX_OPTION_LENGTH` from `src/constants/wheelConfig.ts`. -/
def MAX_OPTION_LENGTH : Nat := 50

/-- `WHEEL_CONFIG.HISTORY_MAX_ITEMS` from `src/constants/wheelConfig.ts`. -/
def HISTORY_MAX_ITEMS : Nat := 35

/-- `sanitizeOptionLabel` of `src/utils/validation.ts` (the second bundled
document of `src/utils/__tests__/helpers.test.ts`, lines 288-302):
`label.trim()`, then `replace(/,/g, '')`, then `substring(0,
MAX_OPTION_LENGTH)` when longer (for shorter input `take` is the identity,
matching the conditional). The `typeof label !== 'string'` guard (line 289)
returns the empty string and is outside this `String → String` core. -/
def sanitizeOptionLabel (l : JStr) : JStr :=
  (stripCommas (trimChars l)).take MAX_OPTION_LENGTH

/-- Model of JS `String.prototype.split(',')` on character lists: splitting
an empty string yields one empty piece, and every comma starts a new piece. -/
def splitOnComma : JStr → List JStr
  | [] => [[]]
  | c :: rest =>
    if c = ',' then [] :: splitOnComma rest
    else
      match splitOnComma rest with
      | [] => [[c]]
      | p :: ps => (c :: p) :: ps

/-- `parseCommaSeparatedLabels` of `src/utils/validation.ts`
(`helpers.test.ts` bundle, lines 370-377):
`input.split(',').map(sanitizeOptionLabel).filter(label => label.length > 0)`. -/
def parseCommaSeparatedLabels (input : JStr) : List JStr :=
  ((splitOnComma input).map sanitizeOptionLabel).filter (fun l => !l.isEmpty)

/-- The `typeof input !== 'string'` guard of `parseCommaSeparatedLabels`
(`helpers.test.ts` bundle, line 371): non-string input yields the empty
list. `none` stands for a non-string argument (`undefined` / `null`). -/
def parseCommaSeparatedLabelsJS : Option JStr → List JStr
  | none => []
  | some s => parseCommaSeparatedLabels s

/-- `validateOptionLabel` of `src/utils/validation.ts` (`helpers.test.ts`
bundle, lines 310-329): the argument is re-sanitized first, then the
sanitized label is rejected when empty (falsy) or when already present
(case-sensitive `includes`) in the existing list; otherwise valid. The
redundant `sanitized.length === 0` check (line 320) repeats the falsy
check and adds nothing. -/
def validateOptionLabel (label : JStr) (existing : List JStr) : Bool :=
  let sanitized := sanitizeOptionLabel label
  !sanitized.isEmpty && !existing.contains sanitized

/-- `canAddMoreOptions` of `src/utils/validation.ts` (`helpers.test.ts`
bundle, lines 384-386): `currentCount < WHEEL_CONFIG.MAX_OPTIONS`. -/
def canAddMoreOptions (currentCount : Nat) : Bool :=
  currentCount < MAX_OPTIONS

/-- `handleAddOption` of `src/components/OptionForm.tsx` (lines 57-118),
restricted to the registry contents (toasts, URL write-back and error strings
are external collaborators). An input containing a comma takes the batch
branch; each parsed label is validated against the original list, then the
concatenation is capped at `MAX_OPTIONS`. A single label is sanitized,
validated and appended only below capacity. -/
def handleAddOption (options : List JStr) (rawInput : JStr) : List JStr :=
  let input := trimChars rawInput
  if input.isEmpty then options
  else if input.contains ',' then
    let labels := parseCommaSeparatedLabels input
    let validLabels := labels.filter (fun l => validateOptionLabel l options)
    if validLabels.isEmpty then options
    else
      let newList := options ++ validLabels
      if MAX_OPTIONS < newList.length then newList.take MAX_OPTIONS
      else newList
  else
    let sanitized := sanitizeOptionLabel input
    if !validateOptionLabel sanitized options then options
    else if !canAddMoreOptions options.length then options
    else options ++ [sanitized]

/-- `handleDeleteOption` of `src/components/OptionForm.tsx` (lines 123-129):
`optionsList().filter((_, i) => i !== index)`. -/
def handleDeleteOption (options : List JStr) (index : Nat) : List JStr :=
  ((options.enum).filter (fun p => p.1 ≠ index)).map (fun p => p.2)

/-- The reset handler of `src/components/OptionForm.tsx` (line 307):
`setOptionsList([])`. -/
def resetOptions : List JStr := []

/-- The hydration effect of `src/components/ColorWheelPicker.tsx`
(lines 115-120): `urlParams.labels && urlParams.labels.split(",")`, then
`setOptionsList(urlLabels)`. `none` as input models an absent parameter; a
falsy (empty) string skips hydration; otherwise the raw comma-split list is
installed with no sanitization and no cap. -/
def hydrateOptions : Option JStr → Option (List JStr)
  | none => none
  | some s => if s.isEmpty then none else some (splitOnComma s)

/-- Core of the angle-to-winner resolution, shared verbatim by
`calculateSelectedOptionIndex` (`helpers.ts` lines 97-110) and the finalize
branch of `handleAnimatedSpin` (`ColorWheelPicker.tsx` lines 166-175):
`sectorDeg = 360 / optionCount`, `selectedRotation = rotation + 90`,
`normalizedRotation = selectedRotation >= 0 ? selectedRotation
 : 360 + (selectedRotation % 360)`,
`Math.floor(normalizedRotation / sectorDeg) % optionCount`.
This version idealizes the two IEEE-double divisions as exact arithmetic:
`Math.floor(x / (360 / n)) = Int.fdiv (x * n) 360`, and JS `%` is truncating
remainder (`Int.tmod`). The idealization is faithful for small sector counts
but not universally — see `sectorIndexFloat` and
`winnerIndex_float_diverges` for the rounding-faithful version and its
divergence at `optionCount = 35`. -/
def sectorIndexCore (rotation : Int) (optionCount : Nat) : Int :=
  let selectedRotation := rotation + 90
  let normalizedRotation : Int :=
    if 0 ≤ selectedRotation then selectedRotation
    else 360 + Int.tmod selectedRotation 360
  Int.tmod ((normalizedRotation * optionCount).fdiv 360) optionCount

/-- `calculateSelectedOptionIndex` of `src/utils/helpers.ts` (in the
`wheelConfig.ts` source bundle, lines 97-110): returns the sentinel `-1`
when `optionCount === 0`, otherwise the shared sector computation. -/
def calculateSelectedOptionIndex (currentRotation : Int) (optionCount : Nat) :
    Int :=
  if optionCount = 0 then -1 else sectorIndexCore currentRotation optionCount

/-- The reference winner formula of spec section 4.2 step 3, written with
mathematical (Euclidean) `%` and `/` on `Int`:
`selectedAngle = endRotation + 90`,
`normalizedAngle = ((selectedAngle % 360) + 360) % 360`,
`winnerIndex = floor(normalizedAngle / (360 / optionCount)) mod optionCount`,
where the floor of the exact quotient is `normalizedAngle * n / 360`. -/
def specWinnerIndex (endRotation : Int) (optionCount : Nat) : Int :=
  let selectedAngle := endRotation + 90
  let normalizedAngle := (selectedAngle % 360 + 360) % 360
  (normalizedAngle * optionCount / 360) % optionCount

/-- Binary logarithm by structural recursion on a fuel argument (so that
kernel reduction can evaluate it); for `n ≥ 1` and enough fuel this is the
unique `l` with `2 ^ l ≤ n < 2 ^ (l + 1)`. Fuel 4096 exceeds every bit
length arising in the wheel computation. -/
def log2Fuel : Nat → Nat → Nat
  | 0, _ => 0
  | fuel + 1, n => if n < 2 then 0 else log2Fuel fuel (n / 2) + 1

/-- Round the positive rational `a / b` to the nearest integer, ties to
even (the IEEE-754 default rounding of a scaled significand). -/
def rnePos (a b : Nat) : Nat :=
  let f := a / b
  let r := a % b
  if 2 * r < b then f
  else if b < 2 * r then f + 1
  else if f % 2 = 0 then f else f + 1

/-- IEEE-754 binary64 round-to-nearest-even of the positive rational
`a / b` (with `a, b ≥ 1`), returned as an exact fraction `(num, den)` with
`den` a power of two. The binade exponent `k` (the unique one with
`2 ^ k ≤ a/b < 2 ^ (k+1)`) is `log2 a - log2 b`, lowered by one when the
comparison `2 ^ la * b ≤ 2 ^ lb * a` (i.e. `2 ^ (la - lb) ≤ a / b`) fails;
the 53-bit significand is the tie-to-even rounding of `(a / b) * 2 ^ (52 -
k)`. Subnormals and overflow are not modelled; every value arising in the
wheel computation is in binary64's normal range. -/
def roundDoublePos (a b : Nat) : Nat × Nat :=
  let la := log2Fuel 4096 a
  let lb := log2Fuel 4096 b
  let k : Int :=
    if 2 ^ la * b ≤ 2 ^ lb * a then (la : Int) - lb else (la : Int) - lb - 1
  let e : Int := 52 - k
  if 0 ≤ e then (rnePos (a * 2 ^ e.toNat) b, 2 ^ e.toNat)
  else (rnePos a (b * 2 ^ (-e).toNat) * 2 ^ (-e).toNat, 1)

/-- The winner computation of `handleAnimatedSpin` /
`calculateSelectedOptionIndex` with the two divisions performed in IEEE-754
binary64 like the JS source: `sectorDeg = 360 / optionCount` is a rounded
double, the quotient `normalizedRotation / sectorDeg` is the exact ratio
`(normalizedRotation * sectorDeg.den) / sectorDeg.num` rounded again, and
`Math.floor` (Nat division of the dyadic fraction) and the final integer
`%` are exact in binary64. `normalizedRotation` is nonnegative by
construction, so `toNat` is faithful. Assumes `optionCount > 0` (the
`optionCount = 0` Infinity/NaN path is covered by the state-level model
`handleAnimatedSpin`); the remaining operations of the source (integer
additions and remainders below 2^53) are exact in binary64. -/
def sectorIndexFloat (rotation : Int) (optionCount : Nat) : Int :=
  let selectedRotation := rotation + 90
  let normalizedRotation : Int :=
    if 0 ≤ selectedRotation then selectedRotation
    else 360 + Int.tmod selectedRotation 360
  let sd := roundDoublePos 360 optionCount
  let q := roundDoublePos (normalizedRotation.toNat * sd.2) sd.1
  Int.tmod ((q.1 / q.2 : Nat) : Int) optionCount

/-- The observable state touched by one spin of `ColorWheelPicker.tsx`.
`winnerList` holds `Option String` because the source pushes
`optionsList()[sectorIndex] || null`, which is `null` for an out-of-range
index or an empty label. -/
structure WheelState where
  currentRotation : Int
  isSpinning : Bool
  winnerList : List (Option String)
  selectedOption : Option String
deriving DecidableEq, Repr

/-- `handleAnimatedSpin` of `src/components/ColorWheelPicker.tsx`
(lines 136-187 and 417-468), collapsed to its end-to-end state change: the
trigger returns unchanged state only when `isSpinning` is already set (there
is no option-count guard in the source); otherwise the animation runs to
completion and the finalize branch resolves and records a winner. `spinAngle`
is the random draw `Math.floor((Math.random() * 5 + 5) * 360)`. With zero
options the source divides by zero (`sectorDeg = Infinity`, sector index
`NaN`) and `optionsList()[NaN]` is `undefined`, so `selectedOptionLabel` is
`null`; the model's out-of-range lookup yields `none` in the same way. -/
def handleAnimatedSpin (s : WheelState) (options : List String)
    (spinAngle : Nat) : WheelState :=
  if s.isSpinning then s
  else
    let endRotation := Int.tmod (s.currentRotation + spinAngle) 360
    let sectorIndex := sectorIndexCore endRotation options.length
    let selectedOptionLabel : Option String :=
      match options[sectorIndex.toNat]? with
      | some l => if l = "" then none else some l
      | none => none
    { currentRotation := endRotation
      isSpinning := false
      winnerList := (selectedOptionLabel :: s.winnerList).take 35
      selectedOption := selectedOptionLabel }

/-- The winner-history update of `src/components/ColorWheelPicker.tsx`
(line 175): `setWinnerList([label, ...winnerList()].splice(0, 35))`;
`splice(0, 35)` returns the removed first 35 elements, i.e. the prepended
list truncated to 35. -/
def recordWinner (label : String) (history : List String) : List String :=
  (label :: history).take HISTORY_MAX_ITEMS

/-- Folding a sequence of `recordWinner` calls over the empty history. -/
def recordAll (labels : List String) : List String :=
  labels.foldl (fun h l => recordWinner l h) []

/-- The 36 distinct labels of spec scenario 5: "A", "B", ..., "Z",
"AA", ..., "AJ". -/
def labels36 : List String :=
  ["A", "B", "C", "D", "E", "F", "G", "H", "I", "J", "K", "L", "M",
   "N", "O", "P", "Q", "R", "S", "T", "U", "V", "W", "X", "Y", "Z",
   "AA", "AB", "AC", "AD", "AE", "AF", "AG", "AH", "AI", "AJ"]

/-- Modelled from the spec: the easing function `cubicOut` comes from the
external `eases` package (not part of this repository). Spec section 4.2
step 2: `progress = 1 - (1 - elapsed/durationMs)^3`. -/
def cubicOut (t : ℚ) : ℚ := 1 - (1 - t) ^ 3

/-- The per-frame visual rotation of `animateSpin`
(`ColorWheelPicker.tsx` lines 153-165):
`startRotation + cubicOut(elapsed / spinDuration) * spinAngle`,
modelled over `ℚ`. -/
def spinRotationValue (startRotation spinAngle elapsed duration : ℚ) : ℚ :=
  startRotation + cubicOut (elapsed / duration) * spinAngle

/-- A 51-character label whose 50-character truncation ends in a space:
49 copies of `a`, a space, then `b`. -/
def c4Input : JStr := List.replicate 49 'a' ++ [' ', 'b']

/-- A persisted `labels` query string consisting of 20 commas: its raw
comma-split has 21 fields. -/
def c3LabelsParam : JStr := List.replicate 20 ','

/-- The registry of spec scenario 2: a single option "Alice". -/
def aliceRegistry : List JStr := ["Alice".data]

/-! Arithmetic helper lemmas for the sector computation. -/

/-- With a nonnegative rotation the source's conditional normalization takes
its first branch, `Math.floor` is the Euclidean quotient and JS `%` is the
Euclidean remainder. -/
theorem sectorIndexCore_eq_emod (rotation : Int) (n : Nat) (h : 0 ≤ rotation) :
    sectorIndexCore rotation n = (rotation + 90) * n / 360 % n := by
  simp only [sectorIndexCore]
  rw [if_pos (by omega : (0 : Int) ≤ rotation + 90)]
  rw [Int.fdiv_eq_ediv _ (by norm_num)]
  exact Int.tmod_eq_emod
    (Int.ediv_nonneg (mul_nonneg (by omega) (by positivity)) (by norm_num))
    (by positivity)

/-- C2: for every `optionCount > 0` and every `endRotation` in `[0, 360)`,
the winner index computed by the angle-to-selection resolution (the shared
sector computation of `handleAnimatedSpin` and
`calculateSelectedOptionIndex`) lies in `[0, optionCount)`. -/
theorem winnerIndex_in_range (n : Nat) (e : Int) (hn : 0 < n) (he0 : 0 ≤ e)
    (he1 : e < 360) : 0 ≤ sectorIndexCore e n ∧ sectorIndexCore e n < n := by
  rw [sectorIndexCore_eq_emod e n he0]
  have hnz : (n : Int) ≠ 0 := by
    have : (0 : Int) < n := by exact_mod_cast hn
    omega
  exact ⟨Int.emod_nonneg _ hnz, Int.emod_lt_of_pos _ (by exact_mod_cast hn)⟩

/-- Witness for `winnerIndex_in_range` at `optionCount = 4`,
`endRotation = 270`. -/
theorem winnerIndex_in_range_witness :
    0 < 4 ∧ (0 : Int) ≤ 270 ∧ (270 : Int) < 360 ∧
      (0 ≤ sectorIndexCore 270 4 ∧ sectorIndexCore 270 4 < 4) :=
  ⟨by decide, by decide, by decide,
   winnerIndex_in_range 4 270 (by decide) (by decide) (by decide)⟩

/-- C9: for a nonnegative rotation, `calculateSelectedOptionIndex` returns
the sentinel `-1` exactly when `optionCount` is zero; with a positive count
it never returns `-1`. -/
theorem calculateSelectedOptionIndex_neg_one_iff (r : Int) (n : Nat)
    (hr : 0 ≤ r) : calculateSelectedOptionIndex r n = -1 ↔ n = 0 := by
  simp only [calculateSelectedOptionIndex]
  constructor
  · intro h
    by_contra hn
    rw [if_neg hn] at h
    have h0 : 0 ≤ sectorIndexCore r n := by
      rw [sectorIndexCore_eq_emod r n hr]
      have hnz : (n : Int) ≠ 0 := by
        have : 0 < n := Nat.pos_of_ne_zero hn
        have : (0 : Int) < n := by exact_mod_cast this
        omega
      exact Int.emod_nonneg _ hnz
    omega
  · intro h
    rw [if_pos h]

/-- Witness for `calculateSelectedOptionIndex_neg_one_iff` at
`rotation = 5`, `optionCount = 3`. -/
theorem calculateSelectedOptionIndex_neg_one_iff_witness :
    (0 : Int) ≤ 5 ∧ (calculateSelectedOptionIndex 5 3 = -1 ↔ 3 = 0) :=
  ⟨by decide, calculateSelectedOptionIndex_neg_one_iff 5 3 (by decide)⟩

/-- C6 counterexample: under the source's IEEE-double semantics the winner
resolution does NOT equal the spec's reference formula for every
`optionCount > 0`: at `optionCount = 35` (reachable, since URL hydration
installs an uncapped list) and `endRotation = 54`, the code computes
`Math.floor(144 / (360 / 35)) % 35`, where `144 / (360/35)` rounds to
`13.999999999999998`, giving index 13, while the reference formula gives 14.
The exact-arithmetic idealization also gives 14, so the divergence is purely
a rounding artifact of the program. -/
theorem winnerIndex_float_diverges :
    sectorIndexFloat 54 35 = 13 ∧ specWinnerIndex 54 35 = 14 ∧
      sectorIndexCore 54 35 = 14 := by
  refine ⟨by decide, by decide, by decide⟩

/-- C6 amended: in exact arithmetic the source's winner resolution agrees
with the spec's reference formula for every `optionCount > 0` and
`endRotation` in `[0, 360)`; the two concrete spec scenarios hold under the
source's IEEE-double semantics as well (4 options with `endRotation = 0`
select index 1, and with `endRotation = 270` select index 0 — those
divisions are exact in binary64). Under IEEE-double semantics the universal
equality fails from `optionCount = 35` on (see
`winnerIndex_float_diverges`). -/
theorem winnerIndex_matches_spec_exact (n : Nat) (e : Int) (hn : 0 < n)
    (he0 : 0 ≤ e) (he1 : e < 360) :
    sectorIndexCore e n = specWinnerIndex e n ∧
      sectorIndexFloat 0 4 = 1 ∧ sectorIndexFloat 270 4 = 0 ∧
      sectorIndexCore 0 4 = 1 ∧ sectorIndexCore 270 4 = 0 := by
  refine ⟨?_, by decide, by decide, by decide, by decide⟩
  rw [sectorIndexCore_eq_emod e n he0]
  simp only [specWinnerIndex]
  have hnorm : ((e + 90) % 360 + 360) % 360 = (e + 90) % 360 := by omega
  rw [hnorm]
  rcases lt_or_le (e + 90) 360 with h | h
  · rw [Int.emod_eq_of_lt (by omega) h]
  · have h2 : (e + 90) % 360 = e + 90 - 360 := by omega
    rw [h2]
    have h3 : (e + 90 - 360) * n = (e + 90) * n + -1 * 360 * n := by ring
    have h4 : (e + 90) * n + -1 * 360 * n = (e + 90) * n + -(n : Int) * 360 :=
      by ring
    rw [h3, h4, Int.add_mul_ediv_right _ _ (by norm_num : (360 : Int) ≠ 0)]
    have h5 : (e + 90) * n / 360 + -(n : Int) =
        (e + 90) * n / 360 + (n : Int) * (-1) := by ring
    rw [h5, Int.add_mul_emod_self_left]

/-- Witness for `winnerIndex_matches_spec_exact` at `optionCount = 4`,
`endRotation = 0`. -/
theorem winnerIndex_matches_spec_exact_witness :
    0 < 4 ∧ (0 : Int) ≤ 0 ∧ (0 : Int) < 360 ∧
      (sectorIndexCore 0 4 = specWinnerIndex 0 4 ∧
        sectorIndexFloat 0 4 = 1 ∧ sectorIndexFloat 270 4 = 0 ∧
        sectorIndexCore 0 4 = 1 ∧ sectorIndexCore 270 4 = 0) :=
  ⟨by decide, by decide, by decide,
   winnerIndex_matches_spec_exact 4 0 (by decide) (by decide) (by decide)⟩

/-- C1: contrary to the claim, triggering a spin with zero options is NOT a
no-op in the source. `handleAnimatedSpin` guards only against `isSpinning`;
from the idle state with an empty option list and a draw of 5.5 turns
(`spinAngle = 1980`) the spin runs to completion, the division producing
`sectorDeg` is unguarded (in JS: `sectorDeg = Infinity`, sector index `NaN`),
a `null` winner is recorded into the winner history, and `currentRotation`
is updated to 180. -/
theorem spin_with_zero_options_not_noop :
    handleAnimatedSpin ⟨0, false, [], none⟩ [] 1980 =
        ⟨180, false, [none], none⟩ ∧
      handleAnimatedSpin ⟨0, false, [], none⟩ [] 1980 ≠
        ⟨0, false, [], none⟩ := by
  decide

/-- Folding `recordWinner` from any short enough starting history prepends
the records (newest first) and truncates to the cap. -/
theorem recordWinner_foldl (ls : List String) :
    ∀ h : List String, h.length ≤ HISTORY_MAX_ITEMS →
      ls.foldl (fun acc l => recordWinner l acc) h =
        (ls.reverse ++ h).take HISTORY_MAX_ITEMS := by
  induction ls with
  | nil =>
    intro h hh
    simp [List.take_of_length_le hh]
  | cons l ls ih =>
    intro h hh
    simp only [List.foldl_cons]
    rw [ih (recordWinner l h)
        (by simpa [recordWinner] using List.length_take_le HISTORY_MAX_ITEMS (l :: h))]
    simp only [recordWinner, List.reverse_cons, List.append_assoc,
      List.singleton_append]
    rw [List.take_append_eq_append_take, List.take_append_eq_append_take,
      List.take_take, Nat.min_eq_left (Nat.sub_le _ _)]

/-- C7: after any sequence of `record` calls starting from the empty history,
the history is exactly the most recent `min(n, HISTORY_MAX_ITEMS)` labels in
most-recent-first order (the reverse of the record sequence, truncated to 35),
so its length is `min(n, 35)`; and for the 36 distinct labels of spec
scenario 5 the final history has length 35, newest entry "AJ", oldest
surviving entry "B", and equals the records minus only the first one,
reversed. -/
theorem winner_history_bound_and_order :
    (∀ ls : List String,
        recordAll ls = ls.reverse.take HISTORY_MAX_ITEMS ∧
          (recordAll ls).length = min ls.length HISTORY_MAX_ITEMS) ∧
      (recordAll labels36).length = 35 ∧
      (recordAll labels36).head? = some "AJ" ∧
      (recordAll labels36).getLast? = some "B" ∧
      recordAll labels36 = (labels36.drop 1).reverse := by
  refine ⟨fun ls => ?_, by decide, by decide, by decide, by decide⟩
  have h := recordWinner_foldl ls [] (by simp)
  constructor
  · simpa [recordAll] using h
  · have h2 : recordAll ls = ls.reverse.take HISTORY_MAX_ITEMS := by
      simpa [recordAll] using h
    rw [h2, List.length_take, List.length_reverse, Nat.min_comm]

/-- Monotonicity of the cubic ease-out curve. -/
theorem cubicOut_monotone {t1 t2 : ℚ} (h : t1 ≤ t2) :
    cubicOut t1 ≤ cubicOut t2 := by
  simp only [cubicOut]
  nlinarith [sq_nonneg ((1 - t1) + (1 - t2)), sq_nonneg ((1 - t1) - (1 - t2)),
    sq_nonneg (1 - t1), sq_nonneg (1 - t2)]

/-- C8: within one spin session with a nonnegative `spinAngle`, the
instantaneous visual rotation `startRotation + cubicOut(elapsed/duration) *
spinAngle` is monotonic non-decreasing in the elapsed time on
`[0, duration]`, hence each frame's rotation is at least the previous
frame's. -/
theorem spin_rotation_monotone (s a d e1 e2 : ℚ) (ha : 0 ≤ a) (hd : 0 < d)
    (h0 : 0 ≤ e1) (h12 : e1 ≤ e2) (h2 : e2 ≤ d) :
    spinRotationValue s a e1 d ≤ spinRotationValue s a e2 d := by
  simp only [spinRotationValue]
  have ht : e1 / d ≤ e2 / d := by gcongr
  have hm := cubicOut_monotone ht
  have := mul_le_mul_of_nonneg_right hm ha
  linarith

/-- Witness for `spin_rotation_monotone`: a 5.5-turn spin over 2000 ms,
compared at 0 ms and 1000 ms. -/
theorem spin_rotation_monotone_witness :
    (0 : ℚ) ≤ 1980 ∧ (0 : ℚ) < 2000 ∧ (0 : ℚ) ≤ 0 ∧ (0 : ℚ) ≤ 1000 ∧
      (1000 : ℚ) ≤ 2000 ∧
      spinRotationValue 0 1980 0 2000 ≤ spinRotationValue 0 1980 1000 2000 :=
  ⟨by norm_num, by norm_num, le_refl 0, by norm_num, by norm_num,
   spin_rotation_monotone 0 1980 2000 0 1000 (by norm_num) (by norm_num)
     (le_refl 0) (by norm_num) (by norm_num)⟩

/-! String-level helper lemmas for the sanitizer and the batch parser. -/

/-- The head surviving a whitespace `dropWhile` is not whitespace. -/
theorem head?_dropWhile_isWs_false {l : JStr} {c : Char}
    (h : (l.dropWhile isWs).head? = some c) : isWs c = false := by
  have key := List.head?_dropWhile_not isWs l
  rw [h] at key
  exact key

/-- A `take` with a positive count preserves the head. -/
theorem head?_take_pos {α : Type} {l : List α} {n : Nat} (hn : n ≠ 0) :
    (l.take n).head? = l.head? := by
  cases l with
  | nil => simp
  | cons a l =>
    cases n with
    | zero => exact absurd rfl hn
    | succ n => simp

/-- Trimming only deletes characters. -/
theorem trimChars_sublist (l : JStr) : List.Sublist (trimChars l) l := by
  have h1 : List.Sublist (l.reverse.dropWhile isWs).reverse l := by
    simpa using (List.dropWhile_sublist (l := l.reverse) isWs).reverse
  exact (List.dropWhile_sublist isWs).trans h1

/-- A trimmed string does not start with whitespace. -/
theorem trimChars_head? {l : JStr} {c : Char}
    (h : (trimChars l).head? = some c) : isWs c = false :=
  head?_dropWhile_isWs_false h

/-- A trimmed string does not end with whitespace. -/
theorem trimChars_getLast? {l : JStr} {c : Char}
    (h : (trimChars l).getLast? = some c) : isWs c = false := by
  simp only [trimChars] at h
  obtain ⟨t, ht⟩ :=
    List.dropWhile_suffix (l := (l.reverse.dropWhile isWs).reverse) isWs
  have hlast : ((l.reverse.dropWhile isWs).reverse).getLast? = some c := by
    rw [← ht, List.getLast?_append, h]
    rfl
  rw [List.getLast?_reverse] at hlast
  exact head?_dropWhile_isWs_false hlast

/-- Every character of a sanitized label survives from the input and is not a
comma. -/
theorem sanitize_mem_no_comma {l : JStr} {c : Char}
    (hc : c ∈ sanitizeOptionLabel l) : c ≠ ',' := by
  simp only [sanitizeOptionLabel] at hc
  have h1 : c ∈ stripCommas (trimChars l) :=
    (List.take_sublist _ _).subset hc
  simp only [stripCommas, List.mem_filter] at h1
  simpa using h1.2

/-- On a comma-free input the sanitizer is just trim followed by
truncation. -/
theorem sanitize_of_no_comma {p : JStr} (hp : ∀ c ∈ p, c ≠ ',') :
    sanitizeOptionLabel p = (trimChars p).take MAX_OPTION_LENGTH := by
  simp only [sanitizeOptionLabel]
  congr 1
  simp only [stripCommas]
  rw [List.filter_eq_self]
  intro a ha
  simpa using hp a ((trimChars_sublist p).subset ha)

/-- The comma-split never returns an empty list of pieces. -/
theorem splitOnComma_ne_nil (l : JStr) : splitOnComma l ≠ [] := by
  induction l with
  | nil => simp [splitOnComma]
  | cons c rest ih =>
    simp only [splitOnComma]
    split
    · simp
    · split
      · simp
      · simp

/-- No piece produced by the comma-split contains a comma. -/
theorem mem_splitOnComma_no_comma {l : JStr} {p : JStr}
    (hp : p ∈ splitOnComma l) : ∀ c ∈ p, c ≠ ',' := by
  induction l generalizing p with
  | nil =>
    simp only [splitOnComma, List.mem_singleton] at hp
    subst hp
    simp
  | cons a rest ih =>
    simp only [splitOnComma] at hp
    by_cases ha : a = ','
    · rw [if_pos ha] at hp
      rcases List.mem_cons.mp hp with h | h
      · subst h; simp
      · exact ih h
    · rw [if_neg ha] at hp
      split at hp
      · rename_i hnil
        exact absurd hnil (splitOnComma_ne_nil rest)
      · rename_i q qs hsp
        rcases List.mem_cons.mp hp with h | h
        · subst h
          intro c hc
          rcases List.mem_cons.mp hc with h | h
          · subst h; exact ha
          · exact ih (p := q) (by rw [hsp]; exact List.mem_cons_self q qs) c h
        · exact ih (by rw [hsp]; exact List.mem_cons_of_mem q h)

/-- C10 amended: every element of the comma-separated label parse is
non-empty, comma-free, at most `MAX_OPTION_LENGTH` long and has no leading
whitespace; an element shorter than `MAX_OPTION_LENGTH` (i.e. not truncated)
also has no trailing whitespace; and non-string input parses to the empty
list. -/
theorem parse_elem_props {s : JStr} {l : JStr}
    (hl : l ∈ parseCommaSeparatedLabels s) :
    l ≠ [] ∧ l.length ≤ MAX_OPTION_LENGTH ∧ (∀ c ∈ l, c ≠ ',') ∧
      (∀ c, l.head? = some c → isWs c = false) ∧
      (l.length < MAX_OPTION_LENGTH →
        ∀ c, l.getLast? = some c → isWs c = false) ∧
      parseCommaSeparatedLabelsJS none = [] := by
  simp only [parseCommaSeparatedLabels, List.mem_filter, List.mem_map] at hl
  obtain ⟨⟨p, hp, rfl⟩, hne⟩ := hl
  have hpnc : ∀ c ∈ p, c ≠ ',' := mem_splitOnComma_no_comma hp
  have hs : sanitizeOptionLabel p = (trimChars p).take MAX_OPTION_LENGTH :=
    sanitize_of_no_comma hpnc
  refine ⟨?_, ?_, fun c hc => sanitize_mem_no_comma hc, ?_, ?_, rfl⟩
  · simpa using hne
  · simpa [sanitizeOptionLabel] using
      List.length_take_le MAX_OPTION_LENGTH (stripCommas (trimChars p))
  · intro c hc
    rw [hs, head?_take_pos (by simp [MAX_OPTION_LENGTH])] at hc
    exact trimChars_head? hc
  · intro hlen c hc
    have htle : (trimChars p).length ≤ MAX_OPTION_LENGTH := by
      rcases Nat.le_total (trimChars p).length MAX_OPTION_LENGTH with h | h
      · exact h
      · rw [hs, List.length_take] at hlen
        omega
    rw [hs, List.take_of_length_le htle] at hc
    exact trimChars_getLast? hc

/-- Witness for `parse_elem_props` on the concrete input "Hi". -/
theorem parse_elem_props_witness :
    (['H', 'i'] : JStr) ∈ parseCommaSeparatedLabels (String.data "Hi") ∧
      ((['H', 'i'] : JStr) ≠ [] ∧
        (['H', 'i'] : JStr).length ≤ MAX_OPTION_LENGTH ∧
        (∀ c ∈ (['H', 'i'] : JStr), c ≠ ',') ∧
        (∀ c, (['H', 'i'] : JStr).head? = some c → isWs c = false) ∧
        ((['H', 'i'] : JStr).length < MAX_OPTION_LENGTH →
          ∀ c, (['H', 'i'] : JStr).getLast? = some c → isWs c = false) ∧
        parseCommaSeparatedLabelsJS none = []) :=
  ⟨by decide, parse_elem_props (s := String.data "Hi") (by decide)⟩

/-- C10 counterexample: a 51-character comma-free input is truncated by the
parser to a label that ends in whitespace, refuting the claim that parsed
labels carry no trailing whitespace. -/
theorem parse_trailing_whitespace_cex :
    parseCommaSeparatedLabels c4Input = [List.replicate 49 'a' ++ [' ']] ∧
      (List.replicate 49 'a' ++ [' ']).getLast? = some ' ' ∧
      isWs ' ' = true := by
  refine ⟨by decide, by decide, by decide⟩

/-- C3 counterexample: hydration from the persisted label string performs a
raw comma-split with no cap, so a `labels` query value of 20 commas hydrates
the registry to 21 options, exceeding `MAX_OPTIONS = 20`. -/
theorem hydration_exceeds_max_options :
    hydrateOptions (some c3LabelsParam) = some (splitOnComma c3LabelsParam) ∧
      (splitOnComma c3LabelsParam).length = 21 ∧
      ¬ (splitOnComma c3LabelsParam).length ≤ MAX_OPTIONS := by
  refine ⟨by decide, by decide, by decide⟩

/-- C3 amended: the mutating registry operations — single add, batch add
(which explicitly caps at `MAX_OPTIONS`), delete-by-index and reset — all
preserve the `length ≤ MAX_OPTIONS` invariant; hydration from the persisted
label string does not enforce it. -/
theorem registry_ops_preserve_bound (options : List JStr) (rawInput : JStr)
    (index : Nat) (h : options.length ≤ MAX_OPTIONS) :
    (handleAddOption options rawInput).length ≤ MAX_OPTIONS ∧
      (handleDeleteOption options index).length ≤ MAX_OPTIONS ∧
      resetOptions.length ≤ MAX_OPTIONS := by
  refine ⟨?_, ?_, by simp [resetOptions, MAX_OPTIONS]⟩
  · simp only [handleAddOption]
    split
    · exact h
    · split
      · split
        · exact h
        · split
          · rename_i hgt
            rw [List.length_take]
            omega
          · rename_i hle
            omega
      · split
        · exact h
        · split
          · exact h
          · rename_i hval hcan
            rw [List.length_append]
            simp only [Bool.not_eq_true', Bool.not_eq_false] at hcan
            simp only [canAddMoreOptions, decide_eq_true_eq] at hcan
            simp only [List.length_cons, List.length_nil]
            omega
  · simp only [handleDeleteOption]
    rw [List.length_map]
    calc (List.filter (fun p => decide (p.1 ≠ index)) options.enum).length
        ≤ options.enum.length := List.length_filter_le _ _
      _ = options.length := List.enum_length
      _ ≤ MAX_OPTIONS := h

/-- Witness for `registry_ops_preserve_bound` on the registry ["Alice"],
adding "Bob" and deleting index 0. -/
theorem registry_ops_preserve_bound_witness :
    aliceRegistry.length ≤ MAX_OPTIONS ∧
      ((handleAddOption aliceRegistry (String.data "Bob")).length ≤
          MAX_OPTIONS ∧
        (handleDeleteOption aliceRegistry 0).length ≤ MAX_OPTIONS ∧
        resetOptions.length ≤ MAX_OPTIONS) :=
  ⟨by decide,
   registry_ops_preserve_bound aliceRegistry (String.data "Bob") 0 (by decide)⟩

/-- C5 counterexample: batch-adding "Bob, Carol, Bob" to the registry
["Alice"] validates every parsed label against the original list only, so
the second "Bob" is NOT rejected: the result contains "Bob" twice and is not
duplicate-free. -/
theorem batch_add_within_batch_duplicate :
    handleAddOption aliceRegistry (String.data "Bob, Carol, Bob") =
        [String.data "Alice", String.data "Bob", String.data "Carol",
          String.data "Bob"] ∧
      ¬ (handleAddOption aliceRegistry
          (String.data "Bob, Carol, Bob")).Nodup := by
  refine ⟨by decide, by decide⟩

/-- C5 amended: batch add filters each parsed label against the pre-batch
registry only. Against ["Alice"], the batch "Bob, Carol, Bob" adds "Bob",
"Carol" and then the second "Bob" as well (it is absent from the original
list), so within-batch duplicates survive; a label already present before
the batch, such as "Alice" in "Alice, Bob", is rejected as a duplicate. -/
theorem batch_add_original_list_policy :
    handleAddOption aliceRegistry (String.data "Bob, Carol, Bob") =
        [String.data "Alice", String.data "Bob", String.data "Carol",
          String.data "Bob"] ∧
      handleAddOption aliceRegistry (String.data "Alice, Bob") =
        [String.data "Alice", String.data "Bob"] := by
  refine ⟨by decide, by decide⟩

end Spinner
